import Mathlib

/-!
Verification development for the Scout VS Code accessibility extension
(`src/ai-service.ts` and `src/extension.ts`).

The two source files are shallowly embedded below.  Document text and HTML
snippets are `String`s (with character-level work done on `String.data`,
a `List Char`); the two external collaborators — the Mistral completion
service and the js-beautify formatter — are modelled as explicit function
parameters (`Oracle`, `fmt`).  Network traffic is made observable by
instrumenting the Fix Requester with a count of completion calls issued.
-/

set_option autoImplicit false
set_option maxRecDepth 100000

/-- Decidable equality on `Except`, for evaluating the embedded functions
on concrete inputs. -/
instance {ε α : Type} [DecidableEq ε] [DecidableEq α] : DecidableEq (Except ε α) := fun x y =>
  match x, y with
  | Except.error a, Except.error b =>
    if h : a = b then isTrue (by rw [h])
    else isFalse (by intro hc; cases hc; exact h rfl)
  | Except.error _, Except.ok _ => isFalse (by intro hc; cases hc)
  | Except.ok _, Except.error _ => isFalse (by intro hc; cases hc)
  | Except.ok a, Except.ok b =>
    if h : a = b then isTrue (by rw [h])
    else isFalse (by intro hc; cases hc; exact h rfl)

namespace Scout

/-! ### Generic character-list helpers -/

/-- First index at which `pat` occurs in `t` (JavaScript `String.indexOf`;
`none` plays the role of `-1`).  `pat = []` matches at index 0, as in JS. -/
def firstIdx : List Char → List Char → Option Nat
  | t, pat =>
    if pat.isPrefixOf t then some 0
    else
      match t with
      | [] => none
      | _ :: t' => (firstIdx t' pat).map (· + 1)

/-- Split a character list on newline characters (JavaScript
`String.split('\n')`): always returns at least one (possibly empty) chunk. -/
def splitNl : List Char → List (List Char)
  | [] => [[]]
  | c :: cs =>
    if c = '\n' then [] :: splitNl cs
    else
      match splitNl cs with
      | [] => [[c]]
      | l :: ls => (c :: l) :: ls

/-- Suffix of a character list strictly after its last newline (the whole
list when it contains no newline). -/
def afterLastNl : List Char → List Char
  | [] => []
  | c :: cs => if c = '\n' ∨ '\n' ∈ cs then afterLastNl cs else c :: cs

/-- Whitespace test used for the JS `trim` / `\s` modelling. -/
def isWs (c : Char) : Bool := c.isWhitespace

/-- JavaScript `String.prototype.trim` on a character list. -/
def trimCharList (l : List Char) : List Char :=
  ((l.dropWhile isWs).reverse.dropWhile isWs).reverse

/-- Apostrophe character, used inside the prompt templates. -/
def apos : String := String.mk [Char.ofNat 39]

/-- Replace the span `[s, e)` of `t` by `r` (a single VS Code
`WorkspaceEdit.replace` on the document text). -/
def replaceRange (t : String) (s e : Nat) (r : String) : String :=
  String.mk (t.data.take s ++ r.data ++ t.data.drop e)

/-! ### Data model (axe-core results and the completion service) -/

/-- An axe-core `NodeResult`: the offending element's HTML snippet and its
selector strings. -/
structure Node where
  html : String
  target : List String
deriving DecidableEq

/-- An axe-core `Result` (one violation): rule id, texts, impact tag and the
affected nodes. -/
structure Violation where
  id : String
  description : String
  help : String
  impact : String
  nodes : List Node
deriving DecidableEq

/-- The issue record handed to `AIService.getAccessibilityFix`
(`{id, description, help, impact}`). -/
structure Issue where
  id : String
  description : String
  help : String
  impact : String
deriving DecidableEq

/-- The completion service, modelled as reply oracles: the content of
`choices[0].message.content` for a given request prompt, or `none` when the
request fails in transport or the reply carries no content. -/
structure Oracle where
  fixReply : String → Option String
  validateReply : String → Option String

/-- JavaScript `violation.impact || 'moderate'` (extension.ts). -/
def impactOr (s : String) : String := if s = "" then "moderate" else s

/-! ### ai-service.ts: prompt construction -/

/-- Specialized prompt for `listitem` issues (ai-service.ts lines 82-92). -/
def listitemPrompt (html : String) : String :=
  "You are an expert web developer with extensive experience in improving web accessibility.\n\nFix this list item accessibility issue:\n"
    ++ html ++
    "\n\nInstructions:\n- Wrap the <li> in an <ol> (ordered list) element\n- Keep existing content and attributes\n- Return ONLY the fixed HTML, no explanations or alternatives\n- Do not include markdown code blocks or backticks\n- Do not provide multiple options, just use <ol>"

/-- Specialized prompt for `image-alt` issues (ai-service.ts lines 95-105). -/
def imageAltPrompt (html : String) : String :=
  "You are an expert web developer with extensive experience in improving web accessibility.\n\nAdd an alt attribute to this image:\n"
    ++ html ++
    "\n\nInstructions:\n- Add a short, descriptive alt attribute based on the image filename\n- If filename is not descriptive or not found, use \"decorative image\"\n- Do not include \"image of\" or \"picture of\"\n- Keep existing attributes\n- Return only the fixed HTML (no explanations, no markdown, no alternatives)"

/-- Specialized prompt for `region` issues (ai-service.ts lines 108-120). -/
def regionPrompt (html : String) : String :=
  "You are an expert web developer with extensive experience in improving web accessibility.\n\nFix this region landmark issue:\n"
    ++ html ++
    "\n\nInstructions:\n- Wrap the content in a <main> element if it" ++ apos ++
    "s the main content\n- Or wrap in a <nav> element if it" ++ apos ++
    "s navigation\n- Or wrap in a <aside> element if it" ++ apos ++
    "s complementary content\n- Or wrap in a <section> element with appropriate ARIA role if it" ++ apos ++
    "s a distinct section\n- Keep existing content and attributes\n- Return ONLY the fixed HTML, no explanations or alternatives\n- Do not include markdown code blocks or backticks"

/-- The validation prompt sent by `validateFix` (ai-service.ts lines 239-244,
a template literal with its significant indentation). -/
def validationPrompt (fix id description help : String) : String :=
  "Validate this HTML fix for accessibility issue \"" ++ id ++
  "\":\n                    Issue: " ++ description ++
  "\n                    Help: " ++ help ++
  "\n                    Fix: " ++ fix ++
  "\n                    \n                    Respond with ONLY \"true\" if the fix is valid, or \"false\" if it"
  ++ apos ++ "s invalid."

/-- Human-review comment prepended to `image-alt` fixes
(ai-service.ts lines 186-188). -/
def reviewComment : String :=
  "<!--\nReview and enhance this alt text for better context. Learn more: https://accessibility.huit.harvard.edu/describe-content-images\n-->\n"

/-- Rule dispatch of `getAccessibilityFix` (ai-service.ts lines 80-123):
the three first-class rule ids get a prompt, everything else is `none`
(the `Unsupported issue type` throw). -/
def promptFor (html : String) (issue : Issue) : Option String :=
  if issue.id = "listitem" then some (listitemPrompt html)
  else if issue.id = "image-alt" then some (imageAltPrompt html)
  else if issue.id = "region" then some (regionPrompt html)
  else none

/-! ### ai-service.ts: reply cleanup -/

/-- Code-fence pattern pieces of the regex `/```html\n?|\n?```/g`. -/
def fenceA : List Char := "```html\n".data

/-- Code-fence pattern without the trailing newline. -/
def fenceB : List Char := "```html".data

/-- Closing fence preceded by a newline. -/
def fenceC : List Char := "\n```".data

/-- Bare fence. -/
def fenceD : List Char := "```".data

/-- One left-to-right pass of the global replace
`fix.replace(/```html\n?|\n?```/g, '')`, alternatives tried in the regex
engine's order; fuel-driven so the kernel can evaluate it. -/
def stripFencesAux : Nat → List Char → List Char
  | 0, l => l
  | fuel + 1, l =>
    match l with
    | [] => []
    | c :: cs =>
      if fenceA.isPrefixOf l then stripFencesAux fuel (l.drop 8)
      else if fenceB.isPrefixOf l then stripFencesAux fuel (l.drop 7)
      else if fenceC.isPrefixOf l then stripFencesAux fuel (l.drop 4)
      else if fenceD.isPrefixOf l then stripFencesAux fuel (l.drop 3)
      else c :: stripFencesAux fuel cs

/-- Remove markdown code fences from a completion reply. -/
def stripFences (l : List Char) : List Char := stripFencesAux l.length l

/-- The global replace `fix.replace(/^[^<]*|[^>]*$/g, '')`: drop everything
before the first `<` and after the last `>`. -/
def stripProse (l : List Char) : List Char :=
  (((l.dropWhile (fun c => c ≠ '<')).reverse.dropWhile (fun c => c ≠ '>')).reverse)

/-- Reply cleanup of `getAccessibilityFix` (ai-service.ts lines 162-171):
fence removal, prose removal, trim. -/
def cleanFix (content : String) : String :=
  String.mk (trimCharList (stripProse (stripFences content.data)))

/-! ### ai-service.ts: validateFix -/

/-- Punctuation class of the regex `/[.,!?]$/`. -/
def punctSet : List Char := ['.', ',', '!', '?']

/-- Strip at most one trailing punctuation character
(`.replace(/[.,!?]$/, '')`). -/
def stripTrailingPunct (l : List Char) : List Char :=
  match l.reverse with
  | [] => []
  | c :: rest => if punctSet.contains c then rest.reverse else l

/-- Normalisation applied to a validation reply (ai-service.ts line 259):
`trim().split(/\s+/)[0].toLowerCase().replace(/[.,!?]$/, '')`. -/
def firstTokenNorm (reply : String) : List Char :=
  stripTrailingPunct (((trimCharList reply.data).takeWhile (fun c => !(isWs c))).map Char.toLower)

/-- The `firstWord === 'true'` comparison (ai-service.ts line 260). -/
def parseValidationReply (reply : String) : Bool :=
  firstTokenNorm reply == "true".data

/-- `AIService.validateFix` (ai-service.ts lines 217-280): sends the
validation prompt; a transport error or a structurally invalid / empty
reply yields `false` (the catch block and the falsy-content check),
otherwise the first-token parse decides. -/
def validateFix (o : Oracle) (fix id description help : String) : Bool :=
  match o.validateReply (validationPrompt fix id description help) with
  | none => false
  | some reply => if reply = "" then false else parseValidationReply reply

/-! ### ai-service.ts: getAccessibilityFix -/

/-- `AIService.getAccessibilityFix` (ai-service.ts lines 54-211), returning
the thrown/returned outcome together with the number of completion-service
requests issued (fix request and validation request each count one). -/
def getAccessibilityFix (o : Oracle) (html : String) (issue : Issue) :
    Except String String × Nat :=
  match promptFor html issue with
  | none => (Except.error ("Unsupported issue type: " ++ issue.id), 0)
  | some prompt =>
    if 4000 < prompt.length then
      (Except.error ("Prompt is too long (" ++ toString prompt.length ++
        " characters). Maximum allowed is 4000 characters."), 0)
    else
      match o.fixReply prompt with
      | none => (Except.error "No content in AI response", 1)
      | some content =>
        if content = "" then (Except.error "No content in AI response", 1)
        else
          let fix := cleanFix content
          if validateFix o fix issue.id issue.description issue.help then
            if issue.id = "image-alt" then (Except.ok (reviewComment ++ fix), 2)
            else (Except.ok fix, 2)
          else (Except.error "AI generated fix failed validation", 2)

/-! ### extension.ts: Location Resolver and diagnostics
(`handleAccessibilityResults`, lines 615-681) -/

/-- Line/column resolution for one node's HTML snippet
(extension.ts lines 627-639): first `indexOf` match, line = number of
chunks of the newline-split prefix minus one, column = length of the last
chunk; defaults to `(0, 0)` when the snippet is absent or empty
(the falsy `node.html` guard). -/
def resolveLoc (content snippet : List Char) : Nat × Nat :=
  if snippet = [] then (0, 0)
  else
    match firstIdx content snippet with
    | none => (0, 0)
    | some i =>
      let lines := splitNl (content.take i)
      (lines.length - 1, (lines.getLastD []).length)

/-- A VS Code diagnostic as built by `handleAccessibilityResults`
(extension.ts lines 654-671): range, message, rule id as `code`, the
`Impact:` related-information text, and the `(violation, node)` payload
stashed in `data` for the AI-fix commands.  `source` is the constant
`"Accessibility"` and severity the constant `Warning`, so neither is a
field here. -/
structure Diagnostic where
  line : Nat
  character : Nat
  endLine : Nat
  endCharacter : Nat
  message : String
  code : String
  related : String
  data : Violation × Node
deriving DecidableEq

/-- Construct the diagnostic for a violation/node at a resolved location;
the range end is `character + (node.html?.length || 1)`. -/
def mkDiag (v : Violation) (n : Node) (line character : Nat) : Diagnostic :=
  { line := line
    character := character
    endLine := line
    endCharacter := character + (if n.html.length = 0 then 1 else n.html.length)
    message := v.help ++ ": " ++ v.description ++ "\nSelector: " ++
      String.intercalate ", " n.target
    code := v.id
    related := "Impact: " ++ v.impact
    data := (v, n) }

/-- Body of the nested violation/node loop of `handleAccessibilityResults`
(extension.ts lines 625-674), threading the `uniqueDiagnosticLocations`
set.  The `filePath` component of the dedup key is constant within one
call, so the key is just `(line, character)`. -/
def handleResultsAux (content : List Char) :
    List (Violation × Node) → List (Nat × Nat) → List Diagnostic
  | [], _ => []
  | (v, n) :: rest, seen =>
    let loc := resolveLoc content n.html.data
    if loc ∈ seen then handleResultsAux content rest seen
    else mkDiag v n loc.1 loc.2 :: handleResultsAux content rest (loc :: seen)

/-- The violation/node pairs in processing order (outer loop over
`results.violations`, inner loop over `violation.nodes`). -/
def flattenPairs (violations : List Violation) : List (Violation × Node) :=
  violations.flatMap (fun v => v.nodes.map (fun n => (v, n)))

/-- `handleAccessibilityResults` (extension.ts lines 615-681): the
diagnostics published for one scan of one file. -/
def handleAccessibilityResults (violations : List Violation)
    (content : List Char) : List Diagnostic :=
  handleResultsAux content (flattenPairs violations) []

/-- A node whose HTML snippet does not occur in the document text
(`indexOf` returns `-1`). -/
def unlocatableNode (content : List Char) (n : Node) : Bool :=
  (firstIdx content n.html.data).isNone

/-- A diagnostic built from an unlocatable node. -/
def unlocatableDiag (content : List Char) (d : Diagnostic) : Bool :=
  unlocatableNode content d.data.2

/-! ### extension.ts: single-issue flow (`scout.getAIFix`, lines 165-300) -/

/-- Outcome of the user's accept/reject prompt. -/
inductive Decision
  | accept
  | reject
deriving DecidableEq

/-- The `scout.getAIFix` command handler up to the accept/reject prompt
(extension.ts lines 165-256): request a fix, validate it again, locate the
snippet in the current text (whole-document range for
`landmark-one-main`), apply the replacement and then the whole-document
reformat `fmt`.  Returns `some (appliedCandidate, textAfterEdits)` when an
edit was applied, `none` on any failure path (all failures surface as the
caught error / the warning message, with no edit). -/
def getAIFix (o : Oracle) (fmt : String → String) (docText : String)
    (v : Violation) (n : Node) : Option (String × String) :=
  match (getAccessibilityFix o n.html ⟨v.id, v.description, v.help, impactOr v.impact⟩).1 with
  | Except.error _ => none
  | Except.ok fixedCode =>
    if fixedCode = "" then none
    else if validateFix o fixedCode v.id v.description v.help then
      if v.id = "landmark-one-main" then
        some (fixedCode, fmt (replaceRange docText 0 docText.length fixedCode))
      else
        match firstIdx docText.data n.html.data with
        | none => none
        | some start =>
          some (fixedCode, fmt (replaceRange docText start (start + n.html.length) fixedCode))
    else none

/-- The `scout.getAIFix` handler including the accept/reject decision
(extension.ts lines 259-292): `originalContent` is the document text
captured just before the edits (equal to `docText`, since no edit happens
between the snapshot and the apply); rejecting replaces the whole current
text with it. -/
def getAIFixFinal (o : Oracle) (fmt : String → String) (docText : String)
    (v : Violation) (n : Node) (dec : Decision) : String :=
  match getAIFix o fmt docText v n with
  | none => docText
  | some (_, t) =>
    match dec with
    | Decision.accept => t
    | Decision.reject => replaceRange t 0 t.length docText

/-! ### extension.ts: fix-all flow (`scout.fixAll`, lines 303-489) -/

/-- Rule-id filter of the fix-all loop (extension.ts line 357):
`['label', 'image-alt', 'listitem'].includes(violation.id)`. -/
def fixAllIds : List String := ["label", "image-alt", "listitem"]

/-- One replacement accumulated into the fix-all batch `WorkspaceEdit`.
`violationData` is ghost provenance recording which violation produced the
replacement (the code keeps only range and text). -/
structure EditRec where
  start : Nat
  stop : Nat
  newText : String
  violationData : Violation
deriving DecidableEq

/-- Result of the fix-all issue loop: whether it stopped at a cancellation
check, the `fixedCount`, the accumulated batch edits, and (ghost
instrumentation) the rule ids for which `getAccessibilityFix` was
invoked, in order. -/
structure LoopOut where
  cancelled : Bool
  count : Nat
  edits : List EditRec
  requested : List String
deriving DecidableEq

/-- The per-diagnostic loop of `scout.fixAll` (extension.ts lines 345-408).
`cancel i` models `token.isCancellationRequested` at the start of iteration
`i`; the document text is read inside the loop but no edit is applied
until after it, so `docText` is constant throughout.  Errors thrown by the
fix request are caught and the issue skipped. -/
def fixAllLoop (o : Oracle) (docText : String) (cancel : Nat → Bool) :
    List Diagnostic → Nat → LoopOut
  | [], _ => ⟨false, 0, [], []⟩
  | d :: rest, i =>
    if cancel i then ⟨true, 0, [], []⟩
    else
      let v := d.data.1
      let n := d.data.2
      if fixAllIds.contains v.id then
        let tail := fixAllLoop o docText cancel rest (i + 1)
        match (getAccessibilityFix o n.html ⟨v.id, v.description, v.help, impactOr v.impact⟩).1 with
        | Except.error _ => ⟨tail.cancelled, tail.count, tail.edits, v.id :: tail.requested⟩
        | Except.ok fixedCode =>
          if fixedCode = "" then
            ⟨tail.cancelled, tail.count, tail.edits, v.id :: tail.requested⟩
          else if validateFix o fixedCode v.id v.description v.help then
            match firstIdx docText.data n.html.data with
            | none => ⟨tail.cancelled, tail.count, tail.edits, v.id :: tail.requested⟩
            | some start =>
              ⟨tail.cancelled, tail.count + 1,
                ⟨start, start + n.html.length, fixedCode, v⟩ :: tail.edits,
                v.id :: tail.requested⟩
          else ⟨tail.cancelled, tail.count, tail.edits, v.id :: tail.requested⟩
      else
        fixAllLoop o docText cancel rest (i + 1)

/-- Insert an edit into a list sorted by decreasing start offset. -/
def insertEditDesc (e : EditRec) : List EditRec → List EditRec
  | [] => [e]
  | f :: fs => if f.start ≤ e.start then e :: f :: fs else f :: insertEditDesc e fs

/-- Sort batch edits by decreasing start offset. -/
def sortEditsDesc (l : List EditRec) : List EditRec := l.foldr insertEditDesc []

/-- Atomic application of the batch `WorkspaceEdit` (extension.ts line 412):
all ranges refer to the pre-edit text, so the replacements are applied
back-to-front. -/
def applyBatch (t : String) (es : List EditRec) : String :=
  (sortEditsDesc es).foldl (fun acc e => replaceRange acc e.start e.stop e.newText) t

/-- The `FixAllResult` union of extension.ts lines 18-21. -/
inductive FixAllResult
  | fixed (count : Nat) (originalContent : String)
  | noFixes
  | cancelled (count : Nat) (originalContent : String)
deriving DecidableEq

/-- The `scout.fixAll` progress body (extension.ts lines 325-443): empty
diagnostic list short-circuits; a cancelled loop returns without touching
the document; otherwise a positive count applies the batch edit and the
whole-document reformat `fmt`.  Returns the outcome and the document text
after the body. -/
def fixAll (o : Oracle) (fmt : String → String) (cancel : Nat → Bool)
    (diags : List Diagnostic) (docText : String) : FixAllResult × String :=
  if diags.isEmpty then (FixAllResult.noFixes, docText)
  else
    let r := fixAllLoop o docText cancel diags 0
    if r.cancelled then (FixAllResult.cancelled r.count docText, docText)
    else if 0 < r.count then
      (FixAllResult.fixed r.count docText, fmt (applyBatch docText r.edits))
    else (FixAllResult.noFixes, docText)

/-- The `scout.fixAll` handler including the accept/reject decision
(extension.ts lines 445-479): only the `fixed` outcome offers the choice;
rejecting replaces the whole current text with `originalContent`. -/
def fixAllFinal (o : Oracle) (fmt : String → String) (cancel : Nat → Bool)
    (diags : List Diagnostic) (docText : String) (dec : Decision) : String :=
  match fixAll o fmt cancel diags docText with
  | (FixAllResult.fixed _ orig, t) =>
    match dec with
    | Decision.accept => t
    | Decision.reject => replaceRange t 0 t.length orig
  | (_, t) => t

/-! ### Witness fixtures (concrete inputs used by the claim witnesses) -/

/-- Completion oracle whose validation replies are always `"true"`. -/
def oW : Oracle := ⟨fun _ => some "<li>x</li>", fun _ => some "true"⟩

/-- Completion oracle whose validation reply is affirmative prose. -/
def oC3w : Oracle := ⟨fun _ => none, fun _ => some " True. indeed"⟩

/-- Sample `listitem` violation. -/
def vLI : Violation := ⟨"listitem", "d", "h", "serious", [⟨"<li>x</li>", ["li"]⟩]⟩

/-- Node of `vLI`. -/
def nLI : Node := ⟨"<li>x</li>", ["li"]⟩

/-- Sample `region` violation. -/
def vRegion : Violation := ⟨"region", "d", "h", "moderate", [⟨"<div>x</div>", ["div"]⟩]⟩

/-- Node of `vRegion`. -/
def nRegion : Node := ⟨"<div>x</div>", ["div"]⟩

/-- Sample `label` violation. -/
def vLabel : Violation := ⟨"label", "d", "h", "critical", [⟨"<input>", ["input"]⟩]⟩

/-- Node of `vLabel`. -/
def nLabel : Node := ⟨"<input>", ["input"]⟩

/-- An HTML snippet of 4001 characters, for the prompt-length guard. -/
def bigHtml : String := String.mk (List.replicate 4001 'x')

/-- A `listitem` issue fed together with `bigHtml`. -/
def bigIssue : Issue := ⟨"listitem", "d", "h", "serious"⟩

/-- First violation of the duplicate-location scenario. -/
def vC4a : Violation := ⟨"image-alt", "d1", "h1", "i1", [⟨"<p>hi</p>", ["p"]⟩]⟩

/-- Second violation of the duplicate-location scenario, same node HTML. -/
def vC4b : Violation := ⟨"label", "d2", "h2", "i2", [⟨"<p>hi</p>", ["p"]⟩]⟩

/-- First violation with an unlocatable node. -/
def vU1 : Violation := ⟨"image-alt", "d1", "h1", "i1", [⟨"<q>", ["q"]⟩]⟩

/-- Second violation with an unlocatable node. -/
def vU2 : Violation := ⟨"label", "d2", "h2", "i2", [⟨"<r>", ["r"]⟩]⟩

/-- The diagnostic the first unlocatable node produces. -/
def dU1 : Diagnostic := mkDiag vU1 ⟨"<q>", ["q"]⟩ 0 0

end Scout

namespace Scout

/-! ### Helper lemmas about the character-level functions -/

theorem splitNl_ne_nil : ∀ l : List Char, splitNl l ≠ [] := by
  intro l
  cases l with
  | nil => simp [splitNl]
  | cons c cs =>
    simp only [splitNl]
    split
    · simp
    · split
      · simp
      · simp

theorem splitNl_length_eq (l : List Char) :
    (splitNl l).length = l.count '\n' + 1 := by
  induction l with
  | nil => simp [splitNl]
  | cons c cs ih =>
    simp only [splitNl]
    by_cases hc : c = '\n'
    · subst hc
      simp [List.count_cons, ih]
    · simp only [if_neg hc]
      cases h : splitNl cs with
      | nil => exact absurd h (splitNl_ne_nil cs)
      | cons l' ls =>
        rw [h] at ih
        simp only [List.length_cons] at ih ⊢
        rw [List.count_cons]
        simp [hc, ih]

theorem afterLastNl_of_not_mem (l : List Char) (h : '\n' ∉ l) :
    afterLastNl l = l := by
  cases l with
  | nil => rfl
  | cons c cs =>
    simp only [afterLastNl]
    rw [if_neg]
    intro hor
    rcases hor with hc | hcs
    · exact h (hc ▸ List.mem_cons_self c cs)
    · exact h (List.mem_cons_of_mem c hcs)

theorem splitNl_getLastD_eq (l : List Char) :
    (splitNl l).getLastD [] = afterLastNl l := by
  induction l with
  | nil => rfl
  | cons c cs ih =>
    by_cases hc : c = '\n'
    · subst hc
      have h1 : splitNl ('\n' :: cs) = [] :: splitNl cs := by
        simp [splitNl]
      have h2 : afterLastNl ('\n' :: cs) = afterLastNl cs := by
        simp [afterLastNl]
      rw [h1, h2, List.getLastD_cons]
      exact ih
    · simp only [splitNl, if_neg hc]
      cases h : splitNl cs with
      | nil => exact absurd h (splitNl_ne_nil cs)
      | cons l' ls =>
        rw [h] at ih
        cases ls with
        | nil =>
          have hlen := splitNl_length_eq cs
          rw [h] at hlen
          simp only [List.length_cons, List.length_nil] at hlen
          have hcount : cs.count '\n' = 0 := by omega
          have hnm : '\n' ∉ cs := List.count_eq_zero.mp hcount
          have hcs : l' = cs := by
            rw [afterLastNl_of_not_mem cs hnm] at ih
            simpa using ih
          simp only [afterLastNl, List.getLastD_cons, List.getLastD_nil]
          rw [if_neg, hcs]
          intro hor
          rcases hor with h1 | h2
          · exact hc h1
          · exact hnm h2
        | cons l'' ls' =>
          have hmem : '\n' ∈ cs := by
            have hlen := splitNl_length_eq cs
            rw [h] at hlen
            simp only [List.length_cons] at hlen
            have : 0 < cs.count '\n' := by omega
            exact List.count_pos_iff.mp this
          simp only [afterLastNl, if_pos (Or.inr hmem)]
          rw [← ih]
          simp only [List.getLastD_cons]

theorem nil_isPrefixOf_eq_true (l : List Char) :
    ([] : List Char).isPrefixOf l = true := by
  cases l <;> rfl

theorem firstIdx_eq_some_of (t pat : List Char) (i : Nat)
    (hm : pat.isPrefixOf (t.drop i) = true)
    (hmin : ∀ j, j < i → pat.isPrefixOf (t.drop j) = false) :
    firstIdx t pat = some i := by
  induction t generalizing i with
  | nil =>
    cases i with
    | zero =>
      rw [List.drop_nil] at hm
      simp only [firstIdx, hm, if_pos]
    | succ i' =>
      have h0 := hmin 0 (Nat.succ_pos i')
      rw [List.drop_zero] at h0
      rw [List.drop_nil] at hm
      rw [h0] at hm
      exact Bool.noConfusion hm
  | cons a t' ih =>
    cases i with
    | zero =>
      rw [List.drop_zero] at hm
      simp only [firstIdx, hm, if_pos]
    | succ i' =>
      have h0 := hmin 0 (Nat.succ_pos i')
      rw [List.drop_zero] at h0
      simp only [firstIdx, h0, Bool.false_eq_true, if_false]
      have hm' : pat.isPrefixOf (t'.drop i') = true := hm
      have hmin' : ∀ j, j < i' → pat.isPrefixOf (t'.drop j) = false := by
        intro j hj
        exact hmin (j + 1) (Nat.succ_lt_succ hj)
      rw [ih i' hm' hmin']
      rfl

theorem firstIdx_eq_none_of (t pat : List Char)
    (h : ∀ j, pat.isPrefixOf (t.drop j) = false) :
    firstIdx t pat = none := by
  induction t with
  | nil =>
    have h0 := h 0
    rw [List.drop_zero] at h0
    simp only [firstIdx, h0, Bool.false_eq_true, if_false]
  | cons a t' ih =>
    have h0 := h 0
    rw [List.drop_zero] at h0
    simp only [firstIdx, h0, Bool.false_eq_true, if_false]
    rw [ih (fun j => h (j + 1))]
    rfl

theorem replaceRange_full (t r : String) : replaceRange t 0 t.length r = r := by
  show String.mk (t.data.take 0 ++ r.data ++ t.data.drop t.data.length) = r
  rw [List.take_zero, List.drop_length, List.nil_append, List.append_nil]

/-! ### Helper lemmas about the diagnostics loop -/

theorem resolveLoc_of_unlocatable (content : List Char) (n : Node)
    (h : unlocatableNode content n = true) :
    resolveLoc content n.html.data = (0, 0) := by
  unfold unlocatableNode at h
  rw [Option.isNone_iff_eq_none] at h
  unfold resolveLoc
  split
  · rfl
  · rw [h]

theorem handleResultsAux_no_unloc_of_seen (content : List Char) :
    ∀ (ps : List (Violation × Node)) (seen : List (Nat × Nat)),
      (0, 0) ∈ seen →
      ∀ d ∈ handleResultsAux content ps seen, unlocatableDiag content d = false := by
  intro ps
  induction ps with
  | nil =>
    intro seen _ d hd
    simp [handleResultsAux] at hd
  | cons p rest ih =>
    intro seen hseen d hd
    obtain ⟨v, n⟩ := p
    simp only [handleResultsAux] at hd
    by_cases hmem : resolveLoc content n.html.data ∈ seen
    · rw [if_pos hmem] at hd
      exact ih seen hseen d hd
    · rw [if_neg hmem] at hd
      rcases List.mem_cons.mp hd with heq | htail
      · subst heq
        cases hu : unlocatableNode content n with
        | false => simpa [unlocatableDiag, mkDiag] using hu
        | true =>
          exfalso
          rw [resolveLoc_of_unlocatable content n hu] at hmem
          exact hmem hseen
      · exact ih (resolveLoc content n.html.data :: seen)
          (List.mem_cons_of_mem _ hseen) d htail

theorem handleResultsAux_countP_unloc_le_one (content : List Char) :
    ∀ (ps : List (Violation × Node)) (seen : List (Nat × Nat)),
      (handleResultsAux content ps seen).countP (unlocatableDiag content) ≤ 1 := by
  intro ps
  induction ps with
  | nil =>
    intro seen
    simp [handleResultsAux]
  | cons p rest ih =>
    intro seen
    obtain ⟨v, n⟩ := p
    simp only [handleResultsAux]
    by_cases hmem : resolveLoc content n.html.data ∈ seen
    · rw [if_pos hmem]
      exact ih seen
    · rw [if_neg hmem]
      rw [List.countP_cons]
      cases hu : unlocatableNode content n with
      | false =>
        have hdiag : unlocatableDiag content (mkDiag v n (resolveLoc content n.html.data).1
            (resolveLoc content n.html.data).2) = false := by
          simpa [unlocatableDiag, mkDiag] using hu
        rw [hdiag]
        simpa using ih (resolveLoc content n.html.data :: seen)
      | true =>
        have hzero : (handleResultsAux content rest
            (resolveLoc content n.html.data :: seen)).countP (unlocatableDiag content) = 0 := by
          apply List.countP_eq_zero.mpr
          intro d hd
          have hfalse := handleResultsAux_no_unloc_of_seen content rest
            (resolveLoc content n.html.data :: seen)
            (by rw [resolveLoc_of_unlocatable content n hu]; exact List.mem_cons_self _ _)
            d hd
          simp [hfalse]
        rw [hzero]
        split <;> simp

theorem handleResultsAux_unloc_head (content : List Char) :
    ∀ (ps : List (Violation × Node)) (seen : List (Nat × Nat)) (d : Diagnostic),
      d ∈ handleResultsAux content ps seen → unlocatableDiag content d = true →
      (0, 0) ∉ seen ∧
        (ps.filter (fun p => unlocatableNode content p.2)).head? = some d.data := by
  intro ps
  induction ps with
  | nil =>
    intro seen d hd _
    simp [handleResultsAux] at hd
  | cons p rest ih =>
    intro seen d hd hu
    obtain ⟨v, n⟩ := p
    simp only [handleResultsAux] at hd
    by_cases hmem : resolveLoc content n.html.data ∈ seen
    · rw [if_pos hmem] at hd
      obtain ⟨hnotin, hhead⟩ := ih seen d hd hu
      have hn : unlocatableNode content n = false := by
        cases hn : unlocatableNode content n with
        | false => rfl
        | true =>
          exfalso
          rw [resolveLoc_of_unlocatable content n hn] at hmem
          exact hnotin hmem
      refine ⟨hnotin, ?_⟩
      rw [List.filter_cons]
      simp only [hn, Bool.false_eq_true, if_false]
      exact hhead
    · rw [if_neg hmem] at hd
      rcases List.mem_cons.mp hd with heq | htail
      · subst heq
        have hn : unlocatableNode content n = true := by
          simpa [unlocatableDiag, mkDiag] using hu
        constructor
        · intro h00
          rw [resolveLoc_of_unlocatable content n hn] at hmem
          exact hmem h00
        · rw [List.filter_cons]
          simp only [hn, if_pos]
          rfl
      · have hnone := handleResultsAux_no_unloc_of_seen content rest
          (resolveLoc content n.html.data :: seen)
        obtain ⟨hnotin, hhead⟩ := ih (resolveLoc content n.html.data :: seen) d htail hu
        have hn : unlocatableNode content n = false := by
          cases hn : unlocatableNode content n with
          | false => rfl
          | true =>
            exfalso
            apply hnotin
            rw [resolveLoc_of_unlocatable content n hn]
            exact List.mem_cons_self _ _
        refine ⟨fun h00 => hnotin (List.mem_cons_of_mem _ h00), ?_⟩
        rw [List.filter_cons]
        simp only [hn, Bool.false_eq_true, if_false]
        exact hhead

/-! ### Helper lemmas about the fix-all loop -/

theorem fixAllLoop_count_eq_edits_length (o : Oracle) (docText : String)
    (cancel : Nat → Bool) :
    ∀ (diags : List Diagnostic) (i : Nat),
      (fixAllLoop o docText cancel diags i).count =
        (fixAllLoop o docText cancel diags i).edits.length := by
  intro diags
  induction diags with
  | nil => intro i; rfl
  | cons d rest ih =>
    intro i
    simp only [fixAllLoop]
    split
    · rfl
    · split
      · split
        · simpa using ih (i + 1)
        · split
          · simpa using ih (i + 1)
          · split
            · split
              · simpa using ih (i + 1)
              · simpa using ih (i + 1)
            · simpa using ih (i + 1)
      · exact ih (i + 1)

theorem fixAllLoop_requested_eq (o : Oracle) (docText : String) :
    ∀ (diags : List Diagnostic) (i : Nat),
      (fixAllLoop o docText (fun _ => false) diags i).requested =
        (diags.map (fun d => d.data.1.id)).filter (fun s => fixAllIds.contains s) := by
  intro diags
  induction diags with
  | nil => intro i; rfl
  | cons d rest ih =>
    intro i
    simp only [fixAllLoop, List.map_cons, List.filter_cons]
    rw [if_neg Bool.false_ne_true]
    by_cases hc : fixAllIds.contains d.data.1.id = true
    · rw [if_pos hc, if_pos hc]
      split
      · dsimp only
        rw [ih (i + 1)]
      · split
        · dsimp only
          rw [ih (i + 1)]
        · split
          · split
            · dsimp only
              rw [ih (i + 1)]
            · dsimp only
              rw [ih (i + 1)]
          · dsimp only
            rw [ih (i + 1)]
    · rw [if_neg hc, if_neg hc]
      exact ih (i + 1)

theorem fixAllLoop_edits_validated (o : Oracle) (docText : String)
    (cancel : Nat → Bool) :
    ∀ (diags : List Diagnostic) (i : Nat) (e : EditRec),
      e ∈ (fixAllLoop o docText cancel diags i).edits →
      validateFix o e.newText e.violationData.id e.violationData.description
        e.violationData.help = true := by
  intro diags
  induction diags with
  | nil =>
    intro i e he
    simp [fixAllLoop] at he
  | cons d rest ih =>
    intro i e he
    simp only [fixAllLoop] at he
    split at he
    · simp at he
    · split at he
      · split at he
        · exact ih (i + 1) e (by simpa using he)
        · split at he
          · exact ih (i + 1) e (by simpa using he)
          · split at he
            · split at he
              · exact ih (i + 1) e (by simpa using he)
              · simp only [] at he
                rcases List.mem_cons.mp he with heq | htail
                · subst heq
                  simpa using by assumption
                · exact ih (i + 1) e htail
            · exact ih (i + 1) e (by simpa using he)
      · exact ih (i + 1) e he

theorem fixAll_pair_inv (o : Oracle) (fmt : String → String) (cancel : Nat → Bool)
    (diags : List Diagnostic) (docText : String) :
    (∀ c orig t, fixAll o fmt cancel diags docText = (FixAllResult.cancelled c orig, t) →
      t = docText ∧ orig = docText) ∧
    (∀ t, fixAll o fmt cancel diags docText = (FixAllResult.noFixes, t) → t = docText) ∧
    (∀ c orig t, fixAll o fmt cancel diags docText = (FixAllResult.fixed c orig, t) →
      orig = docText) := by
  refine ⟨?_, ?_, ?_⟩
  · intro c orig t h
    simp only [fixAll] at h
    split at h
    · simp at h
    · split at h
      · simp only [Prod.mk.injEq, FixAllResult.cancelled.injEq] at h
        exact ⟨h.2.symm, h.1.2.symm⟩
      · split at h
        · simp at h
        · simp at h
  · intro t h
    simp only [fixAll] at h
    split at h
    · simp only [Prod.mk.injEq] at h
      exact h.2.symm
    · split at h
      · simp at h
      · split at h
        · simp at h
        · simp only [Prod.mk.injEq] at h
          exact h.2.symm
  · intro c orig t h
    simp only [fixAll] at h
    split at h
    · simp at h
    · split at h
      · simp at h
      · split at h
        · simp only [Prod.mk.injEq, FixAllResult.fixed.injEq] at h
          exact h.1.2.symm
        · simp at h

/-- Length of the oversized witness snippet. -/
theorem bigHtml_length : bigHtml.length = 4001 := by
  show (List.replicate 4001 'x').length = 4001
  exact List.length_replicate 4001 'x'

/-- The prompt built from the oversized snippet crosses the 4000-character
ceiling. -/
theorem bigPrompt_length_gt : 4000 < (listitemPrompt bigHtml).length := by
  unfold listitemPrompt
  rw [String.length_append, String.length_append, bigHtml_length]
  omega

/-! ### Claim theorems -/

/-- C3: the Fix Validator returns `true` exactly when the completion reply
arrived, and its first whitespace-delimited token — after trimming,
lowercasing and stripping one trailing punctuation character — equals
`"true"`; a missing reply (transport or structure error) yields `false`
instead of an exception. -/
theorem claim_C3_validator_first_token (o : Oracle) (fix id description help : String) :
    validateFix o fix id description help = true ↔
      ∃ r, o.validateReply (validationPrompt fix id description help) = some r ∧
        firstTokenNorm r = "true".data := by
  unfold validateFix
  cases h : o.validateReply (validationPrompt fix id description help) with
  | none => simp
  | some r =>
    by_cases hr : r = ""
    · subst hr
      dsimp only
      rw [if_pos rfl]
      constructor
      · intro hfalse
        exact absurd hfalse (by simp)
      · rintro ⟨r', hr', hn⟩
        cases hr'
        exact absurd hn (by decide)
    · dsimp only
      rw [if_neg hr]
      unfold parseValidationReply
      constructor
      · intro hb
        exact ⟨r, rfl, eq_of_beq hb⟩
      · rintro ⟨r', hr', hn⟩
        cases hr'
        exact beq_iff_eq.mpr hn

/-- Witness for C3: an affirmative prose reply parses to `true`. -/
theorem claim_C3_witness :
    validateFix oC3w "<p/>" "image-alt" "d" "h" = true :=
  (claim_C3_validator_first_token oC3w "<p/>" "image-alt" "d" "h").mpr
    ⟨" True. indeed", rfl, by decide⟩

/-- C5: for an unsupported rule id the Fix Requester fails at once with the
`Unsupported issue type` error and issues zero completion-service requests
(neither a fix request nor a validation request). -/
theorem claim_C5_unsupported_no_network (o : Oracle) (html : String) (issue : Issue)
    (h1 : issue.id ≠ "listitem") (h2 : issue.id ≠ "image-alt")
    (h3 : issue.id ≠ "region") :
    getAccessibilityFix o html issue =
      (Except.error ("Unsupported issue type: " ++ issue.id), 0) := by
  unfold getAccessibilityFix promptFor
  rw [if_neg h1, if_neg h2, if_neg h3]

/-- Witness for C5 at the `label` rule id. -/
theorem claim_C5_witness :
    getAccessibilityFix oW "<input>" ⟨"label", "d", "h", "critical"⟩ =
      (Except.error ("Unsupported issue type: " ++ "label"), 0) :=
  claim_C5_unsupported_no_network oW "<input>" ⟨"label", "d", "h", "critical"⟩
    (by decide) (by decide) (by decide)

/-- C6: when the built prompt exceeds 4000 characters the Fix Requester
fails with the length error and issues zero completion-service requests. -/
theorem claim_C6_prompt_too_long_no_network (o : Oracle) (html : String)
    (issue : Issue) (p : String) (hp : promptFor html issue = some p)
    (hlen : 4000 < p.length) :
    getAccessibilityFix o html issue =
      (Except.error ("Prompt is too long (" ++ toString p.length ++
        " characters). Maximum allowed is 4000 characters."), 0) := by
  unfold getAccessibilityFix
  rw [hp]
  dsimp only
  rw [if_pos hlen]

/-- Witness for C6: a 4001-character snippet pushes the `listitem` prompt
over the ceiling. -/
theorem claim_C6_witness :
    4000 < (listitemPrompt bigHtml).length ∧
      getAccessibilityFix oW bigHtml bigIssue =
        (Except.error ("Prompt is too long (" ++ toString (listitemPrompt bigHtml).length ++
          " characters). Maximum allowed is 4000 characters."), 0) :=
  ⟨bigPrompt_length_gt,
    claim_C6_prompt_too_long_no_network oW bigHtml bigIssue (listitemPrompt bigHtml) rfl
      bigPrompt_length_gt⟩

/-- C1: a candidate fix is applied only after the Fix Validator succeeded on
it — in the single-issue flow the applied candidate passed the handler's
`validateFix` call, and in the fix-all flow every replacement in the
accumulated batch edit passed its `validateFix` call. -/
theorem claim_C1_fix_applied_only_if_validated (o : Oracle) (fmt : String → String)
    (docText : String) (v : Violation) (n : Node) (c t : String)
    (cancel : Nat → Bool) (diags : List Diagnostic) (e : EditRec) :
    (getAIFix o fmt docText v n = some (c, t) →
      validateFix o c v.id v.description v.help = true) ∧
    (e ∈ (fixAllLoop o docText cancel diags 0).edits →
      validateFix o e.newText e.violationData.id e.violationData.description
        e.violationData.help = true) := by
  constructor
  · intro h
    unfold getAIFix at h
    split at h
    · exact absurd h (by simp)
    · split at h
      · exact absurd h (by simp)
      · split at h
        · rename_i hval
          split at h
          · simp only [Option.some.injEq, Prod.mk.injEq] at h
            obtain ⟨h1, _⟩ := h
            subst h1
            exact hval
          · split at h
            · exact absurd h (by simp)
            · simp only [Option.some.injEq, Prod.mk.injEq] at h
              obtain ⟨h1, _⟩ := h
              subst h1
              exact hval
        · exact absurd h (by simp)
  · intro he
    exact fixAllLoop_edits_validated o docText cancel diags 0 e he

/-- Witness for C1: the single-issue flow applies a validated `listitem`
fix, and the fix-all batch holds one validated replacement. -/
theorem claim_C1_witness :
    validateFix oW "<li>x</li>" vLI.id vLI.description vLI.help = true ∧
      validateFix oW (EditRec.mk 0 10 "<li>x</li>" vLI).newText
        (EditRec.mk 0 10 "<li>x</li>" vLI).violationData.id
        (EditRec.mk 0 10 "<li>x</li>" vLI).violationData.description
        (EditRec.mk 0 10 "<li>x</li>" vLI).violationData.help = true :=
  ⟨(claim_C1_fix_applied_only_if_validated oW (fun s => s) "<li>x</li>" vLI nLI
      "<li>x</li>" "<li>x</li>" (fun _ => false) [mkDiag vLI nLI 0 0]
      (EditRec.mk 0 10 "<li>x</li>" vLI)).1 (by decide),
    (claim_C1_fix_applied_only_if_validated oW (fun s => s) "<li>x</li>" vLI nLI
      "<li>x</li>" "<li>x</li>" (fun _ => false) [mkDiag vLI nLI 0 0]
      (EditRec.mk 0 10 "<li>x</li>" vLI)).2 (by decide)⟩

/-- C2 counterexample: the fix-all filter is not the Fix Requester's
supported set.  A `region` issue — first-class in the Fix Requester —
gets no fix request in fix-all, while a `label` issue — rejected by the
Fix Requester — does get one. -/
theorem claim_C2_counterexample :
    (promptFor "<div>x</div>" ⟨"region", "d", "h", "moderate"⟩).isSome = true ∧
      (fixAllLoop oW "<div>x</div>" (fun _ => false)
        [mkDiag vRegion nRegion 0 0] 0).requested = [] ∧
      promptFor "<input>" ⟨"label", "d", "h", "critical"⟩ = none ∧
      (fixAllLoop oW "<input>" (fun _ => false)
        [mkDiag vLabel nLabel 0 0] 0).requested = ["label"] := by
  exact ⟨by decide, by decide, by decide, by decide⟩

/-- C2 (amended): in the fix-all flow a fix is requested for an issue iff
its rule id is in the fix-all filter `{label, image-alt, listitem}` — not
the Fix Requester's first-class set `{listitem, image-alt, region}`:
`region` issues are skipped without a request, and `label` issues are
requested (the request then fails in the Fix Requester as unsupported,
with no network call). -/
theorem claim_C2_fixall_requests_filter_ids (o : Oracle) (docText : String)
    (diags : List Diagnostic) :
    (fixAllLoop o docText (fun _ => false) diags 0).requested =
      (diags.map (fun d => d.data.1.id)).filter (fun s => fixAllIds.contains s) :=
  fixAllLoop_requested_eq o docText diags 0

/-- C7: choosing reject after an applied fix restores the document text to
the snapshot taken before the replacement and reformat edits, in both the
single-issue and the fix-all flow. -/
theorem claim_C7_reject_restores_snapshot (o : Oracle) (fmt : String → String)
    (docText : String) (v : Violation) (n : Node) (cancel : Nat → Bool)
    (diags : List Diagnostic) :
    getAIFixFinal o fmt docText v n Decision.reject = docText ∧
    fixAllFinal o fmt cancel diags docText Decision.reject = docText := by
  constructor
  · unfold getAIFixFinal
    cases h : getAIFix o fmt docText v n with
    | none => rfl
    | some p =>
      obtain ⟨c, t⟩ := p
      exact replaceRange_full t docText
  · unfold fixAllFinal
    cases h : fixAll o fmt cancel diags docText with
    | mk res t2 =>
      cases res with
      | noFixes =>
        show t2 = docText
        exact (fixAll_pair_inv o fmt cancel diags docText).2.1 t2 h
      | cancelled cnt orig =>
        show t2 = docText
        exact ((fixAll_pair_inv o fmt cancel diags docText).1 cnt orig t2 h).1
      | fixed cnt orig =>
        show replaceRange t2 0 t2.length orig = docText
        rw [(fixAll_pair_inv o fmt cancel diags docText).2.2 cnt orig t2 h]
        exact replaceRange_full t2 docText

/-- C9: a cancelled fix-all run leaves the document text untouched — the
accumulated batch edit is discarded — while the reported count equals the
number of replacements accumulated before the cancellation point. -/
theorem claim_C9_cancel_discards_edits (o : Oracle) (fmt : String → String)
    (cancel : Nat → Bool) (diags : List Diagnostic) (docText : String)
    (c : Nat) (orig finalText : String)
    (h : fixAll o fmt cancel diags docText = (FixAllResult.cancelled c orig, finalText)) :
    finalText = docText ∧ orig = docText ∧
      c = (fixAllLoop o docText cancel diags 0).edits.length := by
  simp only [fixAll] at h
  split at h
  · simp at h
  · split at h
    · simp only [Prod.mk.injEq, FixAllResult.cancelled.injEq] at h
      obtain ⟨⟨hc, ho⟩, ht⟩ := h
      refine ⟨ht.symm, ho.symm, ?_⟩
      rw [← hc]
      exact fixAllLoop_count_eq_edits_length o docText cancel diags 0
    · split at h
      · simp at h
      · simp at h

/-- Witness for C9: cancelling at once yields a cancelled result with the
document unchanged and an empty batch. -/
theorem claim_C9_witness :
    "<li>x</li>" = "<li>x</li>" ∧ "<li>x</li>" = "<li>x</li>" ∧
      0 = (fixAllLoop oW "<li>x</li>" (fun _ => true)
        [mkDiag vLI nLI 0 0] 0).edits.length :=
  claim_C9_cancel_discards_edits oW (fun s => s) (fun _ => true)
    [mkDiag vLI nLI 0 0] "<li>x</li>" 0 "<li>x</li>" "<li>x</li>" (by decide)

/-- C4 (evaluation of the code at the failing input): two violations whose
nodes resolve to the same `(file, line, column)` key produce exactly one
diagnostic — the later violation is dropped entirely by the `continue`,
not kept as a plain diagnostic without a fix action. -/
theorem claim_C4_duplicate_location_drops_later :
    (handleAccessibilityResults [vC4a, vC4b] "x<p>hi</p>".data).map
        (fun d => d.data.1.id) = ["image-alt"] ∧
      (handleAccessibilityResults [vC4a, vC4b] "x<p>hi</p>".data).length = 1 := by
  exact ⟨by decide, by decide⟩

/-- C8: when the snippet occurs, the resolved location is (number of
newlines before the first occurrence index, length of the text after the
last of those newlines up to that index); when it does not occur the
location defaults to `(0, 0)`. -/
theorem claim_C8_location_resolution (content snippet : List Char) :
    (∀ i, snippet.isPrefixOf (content.drop i) = true →
        (∀ j, j < i → snippet.isPrefixOf (content.drop j) = false) →
        resolveLoc content snippet =
          ((content.take i).count '\n', (afterLastNl (content.take i)).length)) ∧
    ((∀ j, snippet.isPrefixOf (content.drop j) = false) →
        resolveLoc content snippet = (0, 0)) := by
  constructor
  · intro i hm hmin
    by_cases hs : snippet = []
    · subst hs
      cases i with
      | zero => simp [resolveLoc, afterLastNl]
      | succ i' =>
        have h0 := hmin 0 (Nat.succ_pos i')
        rw [nil_isPrefixOf_eq_true] at h0
        exact absurd h0 (by simp)
    · unfold resolveLoc
      rw [if_neg hs, firstIdx_eq_some_of content snippet i hm hmin]
      dsimp only
      rw [splitNl_length_eq, splitNl_getLastD_eq]
      simp
  · intro hall
    by_cases hs : snippet = []
    · exfalso
      have h0 := hall 0
      rw [hs, nil_isPrefixOf_eq_true] at h0
      exact absurd h0 (by simp)
    · unfold resolveLoc
      rw [if_neg hs, firstIdx_eq_none_of content snippet hall]

theorem not_occurs_of_bounded (t pat : List Char) (hp : pat ≠ [])
    (hb : ∀ j, j < t.length → pat.isPrefixOf (t.drop j) = false) :
    ∀ j, pat.isPrefixOf (t.drop j) = false := by
  intro j
  by_cases hj : j < t.length
  · exact hb j hj
  · rw [List.drop_eq_nil_of_le (Nat.le_of_not_lt hj)]
    cases pat with
    | nil => exact absurd rfl hp
    | cons a as => rfl

/-- Witness for C8: `<p>` occurs first at index 5 of `ab\ncd<p>x` (line 1,
column 2), and `<q>` does not occur at all. -/
theorem claim_C8_witness :
    resolveLoc "ab\ncd<p>x".data "<p>".data =
      (("ab\ncd<p>x".data.take 5).count '\n',
        (afterLastNl ("ab\ncd<p>x".data.take 5)).length) ∧
      resolveLoc "ab\ncd<p>x".data "<q>".data = (0, 0) :=
  ⟨(claim_C8_location_resolution "ab\ncd<p>x".data "<p>".data).1 5 (by decide) (by decide),
    (claim_C8_location_resolution "ab\ncd<p>x".data "<q>".data).2
      (not_occurs_of_bounded "ab\ncd<p>x".data "<q>".data (by decide) (by decide))⟩

/-- C10: every node whose snippet does not occur in the text resolves to
`(0, 0)`; across one scan at most one diagnostic is produced from such
nodes, and when one is produced it stems from the first unlocatable
violation/node pair in processing order — every later unlocatable node
yields no diagnostic at all. -/
theorem claim_C10_unlocatable_dedup (violations : List Violation) (content : List Char) :
    (∀ p ∈ flattenPairs violations, unlocatableNode content p.2 = true →
        resolveLoc content p.2.html.data = (0, 0)) ∧
      (handleAccessibilityResults violations content).countP (unlocatableDiag content) ≤ 1 ∧
      (∀ d ∈ handleAccessibilityResults violations content,
        unlocatableDiag content d = true →
        ((flattenPairs violations).filter
          (fun p => unlocatableNode content p.2)).head? = some d.data) := by
  refine ⟨?_, ?_, ?_⟩
  · intro p _ hu
    exact resolveLoc_of_unlocatable content p.2 hu
  · exact handleResultsAux_countP_unloc_le_one content (flattenPairs violations) []
  · intro d hd hu
    exact (handleResultsAux_unloc_head content (flattenPairs violations) [] d hd hu).2

/-- Witness for C10: two unlocatable nodes in one scan yield one diagnostic,
built from the first pair. -/
theorem claim_C10_witness :
    unlocatableDiag "abc".data dU1 = true ∧
      dU1 ∈ handleAccessibilityResults [vU1, vU2] "abc".data ∧
      ((flattenPairs [vU1, vU2]).filter
        (fun p => unlocatableNode "abc".data p.2)).head? = some dU1.data :=
  ⟨by decide, by decide,
    (claim_C10_unlocatable_dedup [vU1, vU2] "abc".data).2.2 dU1 (by decide) (by decide)⟩

end Scout
